import Mathlib

/-!
Verification of the visual-diff engine of the UI-quality repository.

The engine lives in src/services/imageUtils.ts (function compareImages)
with its caller runVisualTest and the region editor handler handleMouseUp
in the VisualTester component.  JavaScript numbers are modelled as exact
rationals; RGBA8 channel values read from the input buffers are naturals
in 0..255; the bytes written to the output diff buffer are modelled as the
rational values the code assigns before Uint8ClampedArray storage.
-/

/-- A decoded RGBA raster buffer: `data i` is the byte at flat index `i`
(row-major, 4 bytes per pixel), mirroring the JS `ImageData` object. -/
structure ImageData where
  width : ℕ
  height : ℕ
  data : ℕ → ℕ

/-- An ignore rectangle `{x, y, width, height}` in intrinsic pixel space,
mirroring the `IgnoreRegion` interface of imageUtils.ts.  Fields are
integers because they are produced by `Math.round` in the region editor. -/
structure IgnoreRegion where
  x : ℤ
  y : ℤ
  width : ℤ
  height : ℤ
deriving DecidableEq

/-- The `ComparisonMethod` union type of imageUtils.ts. -/
inductive ComparisonMethod
  | PIXEL
  | STRICT
  | LUMINANCE
deriving DecidableEq

/-- One RGBA quadruple of the diff output buffer, with the exact rational
values the code computes. -/
structure RGBA where
  r : ℚ
  g : ℚ
  b : ℚ
  a : ℚ
deriving DecidableEq

/-- The luma formula `0.299*r + 0.587*g + 0.114*b` used by compareImages
for both the LUMINANCE method and the grayscale rendering of ignored
pixels. -/
def luma (r g b : ℚ) : ℚ := 0.299 * r + 0.587 * g + 0.114 * b

/-- Containment test of the region loop of compareImages (lines 36-41):
`x >= region.x && x < region.x + region.width` and the same for `y`. -/
def inRegion (region : IgnoreRegion) (x y : ℕ) : Bool :=
  decide (region.x ≤ (x : ℤ) ∧ (x : ℤ) < region.x + region.width ∧
    region.y ≤ (y : ℤ) ∧ (y : ℤ) < region.y + region.height)

/-- `isIgnored` flag of compareImages (lines 34-45): the pixel lies inside
at least one region of the list. -/
def isIgnored (regions : List IgnoreRegion) (x y : ℕ) : Bool :=
  regions.any (fun region => inRegion region x y)

/-- The per-method `isDifferent` classification of compareImages
(lines 67-95).  For PIXEL the source compares
`Math.sqrt(dr^2+dg^2+db^2+da^2) > 10`; since both sides are nonnegative
this is equivalent to comparing the squared distance with `100`, which is
what the embedding states (the equivalence with the square root form is
proved below). -/
def isDifferent (method : ComparisonMethod) (r1 g1 b1 a1 r2 g2 b2 a2 : ℕ) : Bool :=
  match method with
  | .STRICT =>
      decide (¬ (r1 = r2 ∧ g1 = g2 ∧ b1 = b2 ∧ a1 = a2))
  | .LUMINANCE =>
      decide (10 < |luma (r1 : ℚ) (g1 : ℚ) (b1 : ℚ) - luma (r2 : ℚ) (g2 : ℚ) (b2 : ℚ)|)
  | .PIXEL =>
      decide (100 < ((r1 : ℚ) - (r2 : ℚ)) ^ 2 + ((g1 : ℚ) - (g2 : ℚ)) ^ 2 +
        ((b1 : ℚ) - (b2 : ℚ)) ^ 2 + ((a1 : ℚ) - (a2 : ℚ)) ^ 2)

/-- The three ways the loop body of compareImages treats a pixel. -/
inductive PixelClass
  | ignored
  | different
  | matching
deriving DecidableEq

/-- Classification of pixel index `p` by the loop body of compareImages:
`x = p % width`, `y = floor(p / width)` (lines 29-31), the ignore test,
then the method dispatch on the four channel pairs at byte base `4*p`. -/
def classifyPixel (img1 img2 : ImageData) (regions : List IgnoreRegion)
    (method : ComparisonMethod) (p : ℕ) : PixelClass :=
  if isIgnored regions (p % img1.width) (p / img1.width) then .ignored
  else if isDifferent method
      (img1.data (4 * p)) (img1.data (4 * p + 1)) (img1.data (4 * p + 2)) (img1.data (4 * p + 3))
      (img2.data (4 * p)) (img2.data (4 * p + 1)) (img2.data (4 * p + 2)) (img2.data (4 * p + 3))
    then .different
  else .matching

/-- The `diffPixels` counter of compareImages: the number of loop
iterations (pixel indices below `width * height`) that take the
`isDifferent` branch and execute `diffPixels++`. -/
def diffPixels (img1 img2 : ImageData) (regions : List IgnoreRegion)
    (method : ComparisonMethod) : ℕ :=
  ((Finset.range (img1.width * img1.height)).filter
    (fun p => classifyPixel img1 img2 regions method p = PixelClass.different)).card

/-- The RGBA quadruple the loop body writes at byte base `4*p` of the diff
buffer: grayscale luma of the baseline for ignored pixels (lines 52-60),
opaque red for differing pixels (lines 97-103), a fade toward white of the
baseline for matching pixels (lines 104-111). -/
def diffPixelColor (img1 img2 : ImageData) (regions : List IgnoreRegion)
    (method : ComparisonMethod) (p : ℕ) : RGBA :=
  match classifyPixel img1 img2 regions method p with
  | .ignored =>
      let gray := luma (img1.data (4 * p) : ℚ) (img1.data (4 * p + 1) : ℚ)
        (img1.data (4 * p + 2) : ℚ)
      ⟨gray, gray, gray, 255⟩
  | .different => ⟨255, 0, 0, 255⟩
  | .matching =>
      let fade : ℚ := 0.1
      ⟨(img1.data (4 * p) : ℚ) * fade + 255 * (1 - fade),
       (img1.data (4 * p + 1) : ℚ) * fade + 255 * (1 - fade),
       (img1.data (4 * p + 2) : ℚ) * fade + 255 * (1 - fade), 255⟩

/-- The `DiffCalcResult` returned by compareImages: the percentage and the
diff image (dimensions plus per-pixel RGBA content). -/
structure DiffCalcResult where
  diffPercentage : ℚ
  diffWidth : ℕ
  diffHeight : ℕ
  diffImage : ℕ → RGBA

/-- Embedding of `compareImages` (imageUtils.ts lines 15-122): dimensions
are taken from the first image, `totalPixels = width * height` and
`diffPercentage = (diffPixels / totalPixels) * 100` (lines 114-116). -/
def compareImages (img1 img2 : ImageData) (regions : List IgnoreRegion)
    (method : ComparisonMethod) : DiffCalcResult :=
  ⟨(diffPixels img1 img2 regions method : ℚ) / ((img1.width * img1.height : ℕ) : ℚ) * 100,
   img1.width, img1.height,
   fun p => diffPixelColor img1 img2 regions method p⟩

/-- The verdict of runVisualTest (VisualTester, line 84):
`isPassed = diffPercentage <= threshold`. -/
def isPassed (diffPercentage threshold : ℚ) : Bool :=
  decide (diffPercentage ≤ threshold)

/-- The pass/fail verdict of a full run: compareImages followed by the
threshold test of runVisualTest. -/
def runVisualTestVerdict (img1 img2 : ImageData) (regions : List IgnoreRegion)
    (method : ComparisonMethod) (threshold : ℚ) : Bool :=
  isPassed (compareImages img1 img2 regions method).diffPercentage threshold

/-- Modelled from the spec: the number of non-ignored pixels, the
denominator the spec uses when it calls DiffPercentage the "share of
non-ignored pixels classified as differing".  Stated for comparison with
the source's `totalPixels = width * height`. -/
def nonIgnoredPixels (img1 : ImageData) (regions : List IgnoreRegion) : ℕ :=
  ((Finset.range (img1.width * img1.height)).filter
    (fun p => isIgnored regions (p % img1.width) (p / img1.width) = false)).card

/-- Modelled from the spec: the percentage as the spec's words define it,
differing pixels divided by the count of non-ignored pixels, times 100. -/
def specDiffPercentage (img1 img2 : ImageData) (regions : List IgnoreRegion)
    (method : ComparisonMethod) : ℚ :=
  (diffPixels img1 img2 regions method : ℚ) / (nonIgnoredPixels img1 regions : ℚ) * 100

/-- The rectangle being drawn in the region editor, in display (CSS pixel)
coordinates; coordinates are fractional. -/
structure EditorRect where
  x : ℚ
  y : ℚ
  width : ℚ
  height : ℚ

/-- JavaScript `Math.round`: round half toward positive infinity. -/
def jsRound (q : ℚ) : ℤ := Int.floor (q + 1 / 2)

/-- Embedding of the commit path of `handleMouseUp` (VisualTester,
lines 190-226), as a function of the drawn rectangle and the display and
intrinsic sizes of the editor image: a rectangle under 5 display pixels in
either dimension is discarded (`none`); otherwise the rectangle is scaled
by `intrinsic / display` per axis, rounded with `Math.round`, and the
resulting region is appended to the ignore list (`some region`). -/
def handleMouseUp (rect : EditorRect)
    (displayWidth displayHeight intrinsicWidth intrinsicHeight : ℚ) : Option IgnoreRegion :=
  if rect.width < 5 ∨ rect.height < 5 then none
  else
    let scaleX := intrinsicWidth / displayWidth
    let scaleY := intrinsicHeight / displayHeight
    some ⟨jsRound (rect.x * scaleX), jsRound (rect.y * scaleY),
      jsRound (rect.width * scaleX), jsRound (rect.height * scaleY)⟩

/-- A 2 by 2 all-black, fully opaque baseline: every pixel `(0,0,0,255)`. -/
def blackImage2x2 : ImageData :=
  ⟨2, 2, fun i => if i % 4 = 3 then 255 else 0⟩

/-- A 2 by 2 candidate identical to `blackImage2x2` except that pixel
`(0,0)` is `(255,255,255,255)`. -/
def candWhiteTopLeft : ImageData :=
  ⟨2, 2, fun i => if i < 4 then 255 else if i % 4 = 3 then 255 else 0⟩

/-- A 2 by 1 all-black, fully opaque baseline. -/
def blackImage2x1 : ImageData :=
  ⟨2, 1, fun i => if i % 4 = 3 then 255 else 0⟩

/-- A 2 by 1 candidate identical to `blackImage2x1` except that pixel
`(1,0)` is `(255,255,255,255)`. -/
def candWhiteSecond : ImageData :=
  ⟨2, 1, fun i => if i < 4 then (if i % 4 = 3 then 255 else 0) else 255⟩

/-- A 1 by 1 all-zero image, used as a dimension-mismatch baseline. -/
def mismatchBase : ImageData := ⟨1, 1, fun _ => 0⟩

/-- A 2 by 2 all-zero image, used as a dimension-mismatch candidate. -/
def mismatchCand : ImageData := ⟨2, 2, fun _ => 0⟩

/-- A pixel pair with identical channel values is never classified as
differing, under any of the three methods. -/
theorem isDifferent_self (m : ComparisonMethod) (r g b a : ℕ) :
    isDifferent m r g b a r g b a = false := by
  cases m <;> norm_num [isDifferent, luma]

/-- The loop body never takes the differing branch when both images hold
the same bytes at the pixel. -/
theorem classifyPixel_self_ne (img : ImageData) (regions : List IgnoreRegion)
    (m : ComparisonMethod) (p : ℕ) :
    classifyPixel img img regions m p ≠ PixelClass.different := by
  unfold classifyPixel
  split
  · simp
  · simp [isDifferent_self]

/-- Pointwise monotonicity of the differing-pixel count: if every pixel
ignored under the first region list is also ignored under the second, the
second list yields at most as many differing pixels. -/
theorem diffPixels_le_of_isIgnored_imp (img1 img2 : ImageData) (m : ComparisonMethod)
    (rs1 rs2 : List IgnoreRegion)
    (h : ∀ x y, isIgnored rs1 x y = true → isIgnored rs2 x y = true) :
    diffPixels img1 img2 rs2 m ≤ diffPixels img1 img2 rs1 m := by
  unfold diffPixels
  apply Finset.card_le_card
  intro p hp
  rw [Finset.mem_filter] at hp ⊢
  refine ⟨hp.1, ?_⟩
  have hp2 := hp.2
  cases hb2 : isIgnored rs2 (p % img1.width) (p / img1.width)
  · have hb1 : isIgnored rs1 (p % img1.width) (p / img1.width) = false := by
      cases hb1 : isIgnored rs1 (p % img1.width) (p / img1.width)
      · rfl
      · exact absurd (h _ _ hb1) (by rw [hb2]; simp)
    cases hd : isDifferent m
        (img1.data (4 * p)) (img1.data (4 * p + 1)) (img1.data (4 * p + 2)) (img1.data (4 * p + 3))
        (img2.data (4 * p)) (img2.data (4 * p + 1)) (img2.data (4 * p + 2)) (img2.data (4 * p + 3))
    · rw [classifyPixel] at hp2
      simp [hb2, hd] at hp2
    · rw [classifyPixel]
      simp [hb1, hd]
  · rw [classifyPixel] at hp2
    simp [hb2] at hp2

/-- Lifting a differing-pixel-count inequality to the percentage: the
denominator `width * height` does not depend on the region list. -/
theorem diffPercentage_le_of_count_le (img1 img2 : ImageData) (m : ComparisonMethod)
    (rs1 rs2 : List IgnoreRegion)
    (h : diffPixels img1 img2 rs2 m ≤ diffPixels img1 img2 rs1 m) :
    (compareImages img1 img2 rs2 m).diffPercentage
      ≤ (compareImages img1 img2 rs1 m).diffPercentage := by
  unfold compareImages
  simp only
  by_cases hT : img1.width * img1.height = 0
  · simp [hT]
  · have hT2 : (0 : ℚ) < ((img1.width * img1.height : ℕ) : ℚ) := by
      exact_mod_cast Nat.pos_of_ne_zero hT
    have hc : (diffPixels img1 img2 rs2 m : ℚ) ≤ (diffPixels img1 img2 rs1 m : ℚ) := by
      exact_mod_cast h
    have h2 : (diffPixels img1 img2 rs2 m : ℚ) / ((img1.width * img1.height : ℕ) : ℚ)
        ≤ (diffPixels img1 img2 rs1 m : ℚ) / ((img1.width * img1.height : ℕ) : ℚ) := by
      gcongr
    exact mul_le_mul_of_nonneg_right h2 (by norm_num)

/-- Containment in a rectangle is preserved when the rectangle is enlarged
on every side. -/
theorem inRegion_mono {r rbig : IgnoreRegion}
    (h1 : rbig.x ≤ r.x) (h2 : r.x + r.width ≤ rbig.x + rbig.width)
    (h3 : rbig.y ≤ r.y) (h4 : r.y + r.height ≤ rbig.y + rbig.height)
    (x y : ℕ) : inRegion r x y = true → inRegion rbig x y = true := by
  simp only [inRegion, decide_eq_true_eq]
  omega

/-- Claim C3: comparing any image against a bit-identical copy of itself
yields diffPercentage 0, under each method and any ignore-region list. -/
theorem identical_images_zero_diff (img : ImageData) (regions : List IgnoreRegion)
    (method : ComparisonMethod) :
    (compareImages img img regions method).diffPercentage = 0 := by
  have hd : diffPixels img img regions method = 0 := by
    unfold diffPixels
    rw [Finset.card_eq_zero, Finset.filter_eq_empty_iff]
    intro p _
    exact classifyPixel_self_ne img regions method p
  simp [compareImages, hd]

/-- Claim C2: for fixed images and method, adding a region to the
ignore-region list, or enlarging an existing region of it on every side,
never increases the diffPercentage returned by compareImages. -/
theorem diffPercentage_antitone_in_regions (img1 img2 : ImageData) (m : ComparisonMethod) :
    (∀ (rs : List IgnoreRegion) (r : IgnoreRegion),
      (compareImages img1 img2 (r :: rs) m).diffPercentage
        ≤ (compareImages img1 img2 rs m).diffPercentage)
    ∧ (∀ (pre post : List IgnoreRegion) (r rbig : IgnoreRegion),
      rbig.x ≤ r.x → r.x + r.width ≤ rbig.x + rbig.width →
      rbig.y ≤ r.y → r.y + r.height ≤ rbig.y + rbig.height →
      (compareImages img1 img2 (pre ++ rbig :: post) m).diffPercentage
        ≤ (compareImages img1 img2 (pre ++ r :: post) m).diffPercentage) := by
  constructor
  · intro rs r
    apply diffPercentage_le_of_count_le
    apply diffPixels_le_of_isIgnored_imp
    intro x y hx
    simp only [isIgnored, List.any_cons]
    rw [isIgnored] at hx
    rw [hx]
    simp
  · intro pre post r rbig h1 h2 h3 h4
    apply diffPercentage_le_of_count_le
    apply diffPixels_le_of_isIgnored_imp
    intro x y hx
    simp only [isIgnored, List.any_append, List.any_cons, Bool.or_eq_true] at hx ⊢
    rcases hx with hx | hx | hx
    · exact Or.inl hx
    · exact Or.inr (Or.inl (inRegion_mono h1 h2 h3 h4 x y hx))
    · exact Or.inr (Or.inr hx)

/-- Witness for C2 at a concrete input: adding the region covering pixel
`(0,0)` of the 2 by 1 example, and enlarging it, both keep the percentage
from increasing, with every hypothesis discharged concretely. -/
theorem diffPercentage_antitone_in_regions_witness :
    ((compareImages blackImage2x1 candWhiteSecond [⟨0, 0, 1, 1⟩] ComparisonMethod.PIXEL).diffPercentage
      ≤ (compareImages blackImage2x1 candWhiteSecond [] ComparisonMethod.PIXEL).diffPercentage)
    ∧ ((compareImages blackImage2x1 candWhiteSecond ([] ++ ⟨0, 0, 2, 2⟩ :: []) ComparisonMethod.PIXEL).diffPercentage
      ≤ (compareImages blackImage2x1 candWhiteSecond ([] ++ ⟨0, 0, 1, 1⟩ :: []) ComparisonMethod.PIXEL).diffPercentage) :=
  ⟨(diffPercentage_antitone_in_regions blackImage2x1 candWhiteSecond ComparisonMethod.PIXEL).1
      [] ⟨0, 0, 1, 1⟩,
   (diffPercentage_antitone_in_regions blackImage2x1 candWhiteSecond ComparisonMethod.PIXEL).2
      [] [] ⟨0, 0, 1, 1⟩ ⟨0, 0, 2, 2⟩ (by norm_num) (by norm_num) (by norm_num) (by norm_num)⟩

/-- Counterexample to C1 as stated: with the left pixel of a 2 by 1 pair
ignored and the right pixel differing, the code returns 50 (denominator
`width * height = 2`) while the share of non-ignored differing pixels is
100 (denominator 1); the two disagree. -/
theorem diffPercentage_counts_all_pixels_cex :
    (compareImages blackImage2x1 candWhiteSecond [⟨0, 0, 1, 1⟩]
        ComparisonMethod.PIXEL).diffPercentage = 50
    ∧ specDiffPercentage blackImage2x1 candWhiteSecond [⟨0, 0, 1, 1⟩]
        ComparisonMethod.PIXEL = 100
    ∧ (50 : ℚ) ≠ 100 := by
  have h0 : classifyPixel blackImage2x1 candWhiteSecond [⟨0, 0, 1, 1⟩]
      ComparisonMethod.PIXEL 0 = PixelClass.ignored := by
    norm_num [classifyPixel, isIgnored, inRegion, blackImage2x1]
  have h1 : classifyPixel blackImage2x1 candWhiteSecond [⟨0, 0, 1, 1⟩]
      ComparisonMethod.PIXEL 1 = PixelClass.different := by
    norm_num [classifyPixel, isIgnored, inRegion, isDifferent, blackImage2x1, candWhiteSecond]
  have hwh : blackImage2x1.width * blackImage2x1.height = 2 := rfl
  have hcount : diffPixels blackImage2x1 candWhiteSecond [⟨0, 0, 1, 1⟩]
      ComparisonMethod.PIXEL = 1 := by
    simp [diffPixels, hwh, Finset.range_succ, Finset.filter_insert, Finset.filter_singleton,
      h0, h1]
  have hni : nonIgnoredPixels blackImage2x1 [⟨0, 0, 1, 1⟩] = 1 := by
    have hi0 : isIgnored [(⟨0, 0, 1, 1⟩ : IgnoreRegion)] 0 0 = true := by
      norm_num [isIgnored, inRegion]
    have hi1 : isIgnored [(⟨0, 0, 1, 1⟩ : IgnoreRegion)] 1 0 = false := by
      norm_num [isIgnored, inRegion]
    simp [nonIgnoredPixels, blackImage2x1, Finset.range_succ, Finset.filter_insert,
      Finset.filter_singleton, hi0, hi1]
  refine ⟨?_, ?_, by norm_num⟩
  · rw [show (compareImages blackImage2x1 candWhiteSecond [⟨0, 0, 1, 1⟩]
        ComparisonMethod.PIXEL).diffPercentage
      = (diffPixels blackImage2x1 candWhiteSecond [⟨0, 0, 1, 1⟩] ComparisonMethod.PIXEL : ℚ)
        / ((blackImage2x1.width * blackImage2x1.height : ℕ) : ℚ) * 100 from rfl, hcount, hwh]
    norm_num
  · rw [specDiffPercentage, hcount, hni]
    norm_num

/-- Claim C1 as amended: diffPercentage equals differing pixels divided by
the total pixel count `width * height` (ignored pixels included in the
denominator), times 100, and lies in `[0,100]` whenever the image is
non-empty. -/
theorem diffPercentage_formula_and_bounds (img1 img2 : ImageData)
    (regions : List IgnoreRegion) (m : ComparisonMethod) :
    (compareImages img1 img2 regions m).diffPercentage
      = (diffPixels img1 img2 regions m : ℚ) / ((img1.width * img1.height : ℕ) : ℚ) * 100
    ∧ (0 < img1.width * img1.height →
        0 ≤ (compareImages img1 img2 regions m).diffPercentage
        ∧ (compareImages img1 img2 regions m).diffPercentage ≤ 100) := by
  constructor
  · rfl
  · intro hpos
    have hT : (0 : ℚ) < ((img1.width * img1.height : ℕ) : ℚ) := by exact_mod_cast hpos
    constructor
    · unfold compareImages
      positivity
    · unfold compareImages
      simp only
      have hle : diffPixels img1 img2 regions m ≤ img1.width * img1.height := by
        calc diffPixels img1 img2 regions m
            ≤ (Finset.range (img1.width * img1.height)).card := Finset.card_filter_le _ _
          _ = img1.width * img1.height := Finset.card_range _
      have h1 : (diffPixels img1 img2 regions m : ℚ) / ((img1.width * img1.height : ℕ) : ℚ) ≤ 1 :=
        (div_le_one hT).mpr (by exact_mod_cast hle)
      calc (diffPixels img1 img2 regions m : ℚ) / ((img1.width * img1.height : ℕ) : ℚ) * 100
          ≤ 1 * 100 := mul_le_mul_of_nonneg_right h1 (by norm_num)
        _ = 100 := by norm_num

/-- Claim C4: under PIXEL a non-ignored pixel is classified as differing
exactly when the Euclidean distance of the 4-channel delta exceeds 10
(the source computes `Math.sqrt(dr^2+dg^2+db^2+da^2) > 10`); and on the
concrete 2 by 2 example (all-black baseline, candidate white at pixel
`(0,0)`) the result is diffPercentage 25 with a failing verdict at
threshold 0.1. -/
theorem pixel_method_euclidean_and_example :
    (∀ (img1 img2 : ImageData) (regions : List IgnoreRegion) (p : ℕ),
      isIgnored regions (p % img1.width) (p / img1.width) = false →
      (classifyPixel img1 img2 regions ComparisonMethod.PIXEL p = PixelClass.different ↔
        10 < Real.sqrt (((img1.data (4 * p) : ℝ) - (img2.data (4 * p) : ℝ)) ^ 2
          + ((img1.data (4 * p + 1) : ℝ) - (img2.data (4 * p + 1) : ℝ)) ^ 2
          + ((img1.data (4 * p + 2) : ℝ) - (img2.data (4 * p + 2) : ℝ)) ^ 2
          + ((img1.data (4 * p + 3) : ℝ) - (img2.data (4 * p + 3) : ℝ)) ^ 2)))
    ∧ (compareImages blackImage2x2 candWhiteTopLeft [] ComparisonMethod.PIXEL).diffPercentage = 25
    ∧ runVisualTestVerdict blackImage2x2 candWhiteTopLeft [] ComparisonMethod.PIXEL (1 / 10)
      = false := by
  have hcount : diffPixels blackImage2x2 candWhiteTopLeft [] ComparisonMethod.PIXEL = 1 := by
    have h0 : classifyPixel blackImage2x2 candWhiteTopLeft [] ComparisonMethod.PIXEL 0
        = PixelClass.different := by
      norm_num [classifyPixel, isIgnored, isDifferent, blackImage2x2, candWhiteTopLeft]
    have h1 : classifyPixel blackImage2x2 candWhiteTopLeft [] ComparisonMethod.PIXEL 1
        = PixelClass.matching := by
      norm_num [classifyPixel, isIgnored, isDifferent, blackImage2x2, candWhiteTopLeft]
    have h2 : classifyPixel blackImage2x2 candWhiteTopLeft [] ComparisonMethod.PIXEL 2
        = PixelClass.matching := by
      norm_num [classifyPixel, isIgnored, isDifferent, blackImage2x2, candWhiteTopLeft]
    have h3 : classifyPixel blackImage2x2 candWhiteTopLeft [] ComparisonMethod.PIXEL 3
        = PixelClass.matching := by
      norm_num [classifyPixel, isIgnored, isDifferent, blackImage2x2, candWhiteTopLeft]
    have hwh : blackImage2x2.width * blackImage2x2.height = 4 := rfl
    simp [diffPixels, hwh, Finset.range_succ, Finset.filter_insert, Finset.filter_singleton,
      h0, h1, h2, h3]
  have hpct : (compareImages blackImage2x2 candWhiteTopLeft []
      ComparisonMethod.PIXEL).diffPercentage = 25 := by
    rw [show (compareImages blackImage2x2 candWhiteTopLeft []
          ComparisonMethod.PIXEL).diffPercentage
        = (diffPixels blackImage2x2 candWhiteTopLeft [] ComparisonMethod.PIXEL : ℚ)
          / ((blackImage2x2.width * blackImage2x2.height : ℕ) : ℚ) * 100 from rfl, hcount]
    norm_num [blackImage2x2]
  refine ⟨?_, hpct, ?_⟩
  · intro img1 img2 regions p hign
    rw [classifyPixel, if_neg (by rw [hign]; simp)]
    have hiff : isDifferent ComparisonMethod.PIXEL
        (img1.data (4 * p)) (img1.data (4 * p + 1)) (img1.data (4 * p + 2)) (img1.data (4 * p + 3))
        (img2.data (4 * p)) (img2.data (4 * p + 1)) (img2.data (4 * p + 2)) (img2.data (4 * p + 3))
        = true ↔
        (100 : ℚ) < ((img1.data (4 * p) : ℚ) - (img2.data (4 * p) : ℚ)) ^ 2
          + ((img1.data (4 * p + 1) : ℚ) - (img2.data (4 * p + 1) : ℚ)) ^ 2
          + ((img1.data (4 * p + 2) : ℚ) - (img2.data (4 * p + 2) : ℚ)) ^ 2
          + ((img1.data (4 * p + 3) : ℚ) - (img2.data (4 * p + 3) : ℚ)) ^ 2 := by
      simp [isDifferent]
    have hreal : (100 : ℚ) < ((img1.data (4 * p) : ℚ) - (img2.data (4 * p) : ℚ)) ^ 2
          + ((img1.data (4 * p + 1) : ℚ) - (img2.data (4 * p + 1) : ℚ)) ^ 2
          + ((img1.data (4 * p + 2) : ℚ) - (img2.data (4 * p + 2) : ℚ)) ^ 2
          + ((img1.data (4 * p + 3) : ℚ) - (img2.data (4 * p + 3) : ℚ)) ^ 2 ↔
        (100 : ℝ) < ((img1.data (4 * p) : ℝ) - (img2.data (4 * p) : ℝ)) ^ 2
          + ((img1.data (4 * p + 1) : ℝ) - (img2.data (4 * p + 1) : ℝ)) ^ 2
          + ((img1.data (4 * p + 2) : ℝ) - (img2.data (4 * p + 2) : ℝ)) ^ 2
          + ((img1.data (4 * p + 3) : ℝ) - (img2.data (4 * p + 3) : ℝ)) ^ 2 := by
      rw [show (100 : ℝ) = ((100 : ℚ) : ℝ) by norm_num]
      push_cast
      constructor
      · intro h
        exact_mod_cast h
      · intro h
        exact_mod_cast h
    have hsqrt : 10 < Real.sqrt (((img1.data (4 * p) : ℝ) - (img2.data (4 * p) : ℝ)) ^ 2
          + ((img1.data (4 * p + 1) : ℝ) - (img2.data (4 * p + 1) : ℝ)) ^ 2
          + ((img1.data (4 * p + 2) : ℝ) - (img2.data (4 * p + 2) : ℝ)) ^ 2
          + ((img1.data (4 * p + 3) : ℝ) - (img2.data (4 * p + 3) : ℝ)) ^ 2) ↔
        (100 : ℝ) < ((img1.data (4 * p) : ℝ) - (img2.data (4 * p) : ℝ)) ^ 2
          + ((img1.data (4 * p + 1) : ℝ) - (img2.data (4 * p + 1) : ℝ)) ^ 2
          + ((img1.data (4 * p + 2) : ℝ) - (img2.data (4 * p + 2) : ℝ)) ^ 2
          + ((img1.data (4 * p + 3) : ℝ) - (img2.data (4 * p + 3) : ℝ)) ^ 2 := by
      rw [Real.lt_sqrt (by norm_num)]
      norm_num
    have hkey := hiff.trans (hreal.trans hsqrt.symm)
    cases hb : isDifferent ComparisonMethod.PIXEL
        (img1.data (4 * p)) (img1.data (4 * p + 1)) (img1.data (4 * p + 2)) (img1.data (4 * p + 3))
        (img2.data (4 * p)) (img2.data (4 * p + 1)) (img2.data (4 * p + 2)) (img2.data (4 * p + 3))
    · rw [hb] at hkey
      simp only [Bool.false_eq_true, false_iff] at hkey
      simp [hb, hkey]
    · rw [hb] at hkey
      simp only [true_iff] at hkey
      simp [hb, hkey]
  · rw [runVisualTestVerdict, isPassed, hpct]
    norm_num

/-- Witness for C4: the iff applied at the differing top-left pixel of the
concrete example, with the non-ignored hypothesis discharged. -/
theorem pixel_method_euclidean_and_example_witness :
    isIgnored [] (0 % blackImage2x2.width) (0 / blackImage2x2.width) = false
    ∧ (classifyPixel blackImage2x2 candWhiteTopLeft [] ComparisonMethod.PIXEL 0
        = PixelClass.different ↔
      10 < Real.sqrt (((blackImage2x2.data 0 : ℝ) - (candWhiteTopLeft.data 0 : ℝ)) ^ 2
        + ((blackImage2x2.data 1 : ℝ) - (candWhiteTopLeft.data 1 : ℝ)) ^ 2
        + ((blackImage2x2.data 2 : ℝ) - (candWhiteTopLeft.data 2 : ℝ)) ^ 2
        + ((blackImage2x2.data 3 : ℝ) - (candWhiteTopLeft.data 3 : ℝ)) ^ 2)) :=
  ⟨rfl, by
    have h := pixel_method_euclidean_and_example.1 blackImage2x2 candWhiteTopLeft [] 0 rfl
    simpa using h⟩

/-- Claim C5: under LUMINANCE a pixel pair is differing exactly when the
luma delta exceeds 10 in absolute value; the alpha channels never affect
the LUMINANCE outcome; and the pair `(120,120,120)` versus `(121,119,120)`
is matching under LUMINANCE yet differing under STRICT. -/
theorem luminance_method_semantics :
    (∀ r1 g1 b1 a1 r2 g2 b2 a2 : ℕ,
      isDifferent ComparisonMethod.LUMINANCE r1 g1 b1 a1 r2 g2 b2 a2 = true ↔
        10 < |luma (r1 : ℚ) (g1 : ℚ) (b1 : ℚ) - luma (r2 : ℚ) (g2 : ℚ) (b2 : ℚ)|)
    ∧ (∀ r1 g1 b1 a1 b1a r2 g2 b2 a2 b2a : ℕ,
      isDifferent ComparisonMethod.LUMINANCE r1 g1 b1 a1 r2 g2 b2 a2
        = isDifferent ComparisonMethod.LUMINANCE r1 g1 b1 b1a r2 g2 b2 b2a)
    ∧ isDifferent ComparisonMethod.LUMINANCE 120 120 120 255 121 119 120 255 = false
    ∧ isDifferent ComparisonMethod.STRICT 120 120 120 255 121 119 120 255 = true := by
  refine ⟨?_, ?_, ?_, ?_⟩
  · intro r1 g1 b1 a1 r2 g2 b2 a2
    simp [isDifferent]
  · intro r1 g1 b1 a1 b1a r2 g2 b2 a2 b2a
    simp [isDifferent]
  · norm_num [isDifferent, luma, abs_le]
  · norm_num [isDifferent]

/-- Claim C6: the verdict of a run is passing exactly when diffPercentage
is at or below the (non-negative) threshold; in particular a run whose
diffPercentage equals the threshold passes. -/
theorem verdict_threshold_boundary (img1 img2 : ImageData) (regions : List IgnoreRegion)
    (m : ComparisonMethod) (threshold : ℚ) (_hth : 0 ≤ threshold) :
    (runVisualTestVerdict img1 img2 regions m threshold = true ↔
      (compareImages img1 img2 regions m).diffPercentage ≤ threshold)
    ∧ ((compareImages img1 img2 regions m).diffPercentage = threshold →
      runVisualTestVerdict img1 img2 regions m threshold = true) := by
  constructor
  · simp [runVisualTestVerdict, isPassed]
  · intro h
    simp [runVisualTestVerdict, isPassed, h]

/-- Witness for C6 at a concrete run sitting exactly on the threshold:
the 2 by 2 example has diffPercentage 25 and passes at threshold 25. -/
theorem verdict_threshold_boundary_witness :
    (0 : ℚ) ≤ 25
    ∧ (runVisualTestVerdict blackImage2x2 candWhiteTopLeft [] ComparisonMethod.PIXEL 25 = true ↔
      (compareImages blackImage2x2 candWhiteTopLeft [] ComparisonMethod.PIXEL).diffPercentage ≤ 25)
    ∧ ((compareImages blackImage2x2 candWhiteTopLeft [] ComparisonMethod.PIXEL).diffPercentage = 25 →
      runVisualTestVerdict blackImage2x2 candWhiteTopLeft [] ComparisonMethod.PIXEL 25 = true) :=
  ⟨by norm_num,
   (verdict_threshold_boundary blackImage2x2 candWhiteTopLeft [] ComparisonMethod.PIXEL 25
      (by norm_num)).1,
   (verdict_threshold_boundary blackImage2x2 candWhiteTopLeft [] ComparisonMethod.PIXEL 25
      (by norm_num)).2⟩

/-- Witness for the amended C1 at a concrete non-empty image. -/
theorem diffPercentage_formula_and_bounds_witness :
    0 < blackImage2x2.width * blackImage2x2.height
    ∧ (0 ≤ (compareImages blackImage2x2 candWhiteTopLeft [] ComparisonMethod.PIXEL).diffPercentage
       ∧ (compareImages blackImage2x2 candWhiteTopLeft [] ComparisonMethod.PIXEL).diffPercentage
          ≤ 100) :=
  ⟨by norm_num [blackImage2x2],
   (diffPercentage_formula_and_bounds blackImage2x2 candWhiteTopLeft []
      ComparisonMethod.PIXEL).2 (by norm_num [blackImage2x2])⟩

/-- Counterexample to C7 as stated: for a 1 by 1 baseline and a 2 by 2
candidate the engine does not reject the pair; compareImages returns a
fully computed result (percentage 0, diff image sized by the baseline). -/
theorem dimension_mismatch_not_rejected_cex :
    mismatchBase.width ≠ mismatchCand.width
    ∧ mismatchBase.height ≠ mismatchCand.height
    ∧ (compareImages mismatchBase mismatchCand [] ComparisonMethod.PIXEL).diffPercentage = 0
    ∧ (compareImages mismatchBase mismatchCand [] ComparisonMethod.PIXEL).diffWidth = 1 := by
  have h0 : classifyPixel mismatchBase mismatchCand [] ComparisonMethod.PIXEL 0
      = PixelClass.matching := by
    norm_num [classifyPixel, isIgnored, isDifferent, mismatchBase, mismatchCand]
  have hwh : mismatchBase.width * mismatchBase.height = 1 := rfl
  have hcount : diffPixels mismatchBase mismatchCand [] ComparisonMethod.PIXEL = 0 := by
    simp [diffPixels, hwh, Finset.range_succ, Finset.filter_insert,
      Finset.filter_singleton, h0]
  refine ⟨by norm_num [mismatchBase, mismatchCand], by norm_num [mismatchBase, mismatchCand],
    ?_, rfl⟩
  rw [show (compareImages mismatchBase mismatchCand [] ComparisonMethod.PIXEL).diffPercentage
      = (diffPixels mismatchBase mismatchCand [] ComparisonMethod.PIXEL : ℚ)
        / ((mismatchBase.width * mismatchBase.height : ℕ) : ℚ) * 100 from rfl, hcount]
  norm_num

/-- Claim C7 as amended: compareImages performs no dimension check at all;
it computes a result for every input pair, the output dimensions are the
baseline's, and the candidate's declared dimensions never influence any
output. -/
theorem compareImages_ignores_candidate_dimensions :
    (∀ (img1 img2 : ImageData) (regions : List IgnoreRegion) (m : ComparisonMethod) (w h : ℕ),
      compareImages img1 ⟨w, h, img2.data⟩ regions m = compareImages img1 img2 regions m)
    ∧ (∀ (img1 img2 : ImageData) (regions : List IgnoreRegion) (m : ComparisonMethod),
      (compareImages img1 img2 regions m).diffWidth = img1.width
      ∧ (compareImages img1 img2 regions m).diffHeight = img1.height) :=
  ⟨fun _ _ _ _ _ _ => rfl, fun _ _ _ _ => ⟨rfl, rfl⟩⟩

/-- Counterexample to C8 as stated: a 5 by 5 display-pixel rectangle drawn
on a 1 by 1 intrinsic image displayed at 100 by 100 maps to
`round(5/100) = 0` in both dimensions, passes the only size filter the
editor has (display size at least 5), and is committed to the ignore list
as a zero-sized region. -/
theorem handleMouseUp_zero_size_committed_cex :
    handleMouseUp ⟨0, 0, 5, 5⟩ 100 100 1 1 = some ⟨0, 0, 0, 0⟩
    ∧ ¬ (0 : ℤ) < 0 := by
  constructor
  · rw [handleMouseUp, if_neg (by norm_num)]
    norm_num [jsRound]
  · norm_num

/-- Claim C8 as amended: the editor discards rectangles under 5 display
pixels in either dimension; a committed region carries the rounded scaled
coordinates and stems from a rectangle at least 5 display pixels in both
dimensions; and when both scale factors are at least 1/10 a committed
region has strictly positive width and height — but the editor itself
never checks the mapped size, so smaller scale factors can commit
zero-sized regions. -/
theorem handleMouseUp_commit_properties (rect : EditorRect) (dw dh iw ih : ℚ) :
    (rect.width < 5 ∨ rect.height < 5 → handleMouseUp rect dw dh iw ih = none)
    ∧ (∀ r : IgnoreRegion, handleMouseUp rect dw dh iw ih = some r →
        r = ⟨jsRound (rect.x * (iw / dw)), jsRound (rect.y * (ih / dh)),
             jsRound (rect.width * (iw / dw)), jsRound (rect.height * (ih / dh))⟩
        ∧ 5 ≤ rect.width ∧ 5 ≤ rect.height)
    ∧ (5 ≤ rect.width → 5 ≤ rect.height → 1 / 10 ≤ iw / dw → 1 / 10 ≤ ih / dh →
        ∃ r : IgnoreRegion, handleMouseUp rect dw dh iw ih = some r
          ∧ 0 < r.width ∧ 0 < r.height) := by
  refine ⟨?_, ?_, ?_⟩
  · intro h
    rw [handleMouseUp, if_pos h]
  · intro r hr
    by_cases h : rect.width < 5 ∨ rect.height < 5
    · rw [handleMouseUp, if_pos h] at hr
      exact absurd hr (by simp)
    · push_neg at h
      rw [handleMouseUp, if_neg (by push_neg; exact h)] at hr
      exact ⟨(Option.some.inj hr).symm, h.1, h.2⟩
  · intro h5w h5h hsx hsy
    have hno : ¬ (rect.width < 5 ∨ rect.height < 5) := by
      push_neg
      exact ⟨h5w, h5h⟩
    refine ⟨⟨jsRound (rect.x * (iw / dw)), jsRound (rect.y * (ih / dh)),
        jsRound (rect.width * (iw / dw)), jsRound (rect.height * (ih / dh))⟩,
      by rw [handleMouseUp, if_neg hno], ?_, ?_⟩
    · have hhalf : (1 : ℚ) / 2 ≤ rect.width * (iw / dw) := by
        calc (1 : ℚ) / 2 = 5 * (1 / 10) := by norm_num
          _ ≤ rect.width * (iw / dw) :=
            mul_le_mul h5w hsx (by norm_num) (le_trans (by norm_num) h5w)
      show (0 : ℤ) < jsRound (rect.width * (iw / dw))
      have h1 : (1 : ℤ) ≤ jsRound (rect.width * (iw / dw)) := by
        rw [jsRound]
        apply Int.le_floor.mpr
        push_cast
        linarith
      omega
    · have hhalf : (1 : ℚ) / 2 ≤ rect.height * (ih / dh) := by
        calc (1 : ℚ) / 2 = 5 * (1 / 10) := by norm_num
          _ ≤ rect.height * (ih / dh) :=
            mul_le_mul h5h hsy (by norm_num) (le_trans (by norm_num) h5h)
      show (0 : ℤ) < jsRound (rect.height * (ih / dh))
      have h1 : (1 : ℤ) ≤ jsRound (rect.height * (ih / dh)) := by
        rw [jsRound]
        apply Int.le_floor.mpr
        push_cast
        linarith
      omega

/-- Witness for the amended C8: a 5 by 5 rectangle at scale 1 commits a
positive-size region, with every hypothesis discharged concretely. -/
theorem handleMouseUp_commit_properties_witness :
    (5 : ℚ) ≤ 5 ∧ (1 : ℚ) / 10 ≤ 100 / 100
    ∧ ∃ r : IgnoreRegion, handleMouseUp ⟨0, 0, 5, 5⟩ 100 100 100 100 = some r
        ∧ 0 < r.width ∧ 0 < r.height :=
  ⟨by norm_num, by norm_num,
   (handleMouseUp_commit_properties ⟨0, 0, 5, 5⟩ 100 100 100 100).2.2
     (by norm_num) (by norm_num) (by norm_num) (by norm_num)⟩

/-- Claim C9: in the diff image, an ignored pixel is the baseline's
grayscale luma replicated across R/G/B with alpha 255; a differing
non-ignored pixel is exactly `(255,0,0,255)`; a matching non-ignored pixel
is `baseline*0.1 + 255*0.9` per RGB channel with alpha 255. -/
theorem diffImage_rendering (img1 img2 : ImageData) (regions : List IgnoreRegion)
    (m : ComparisonMethod) (p : ℕ) (_hp : p < img1.width * img1.height) :
    (isIgnored regions (p % img1.width) (p / img1.width) = true →
      (compareImages img1 img2 regions m).diffImage p =
        ⟨luma (img1.data (4 * p) : ℚ) (img1.data (4 * p + 1) : ℚ) (img1.data (4 * p + 2) : ℚ),
         luma (img1.data (4 * p) : ℚ) (img1.data (4 * p + 1) : ℚ) (img1.data (4 * p + 2) : ℚ),
         luma (img1.data (4 * p) : ℚ) (img1.data (4 * p + 1) : ℚ) (img1.data (4 * p + 2) : ℚ),
         255⟩)
    ∧ (isIgnored regions (p % img1.width) (p / img1.width) = false →
       isDifferent m
          (img1.data (4 * p)) (img1.data (4 * p + 1)) (img1.data (4 * p + 2)) (img1.data (4 * p + 3))
          (img2.data (4 * p)) (img2.data (4 * p + 1)) (img2.data (4 * p + 2)) (img2.data (4 * p + 3))
          = true →
      (compareImages img1 img2 regions m).diffImage p = ⟨255, 0, 0, 255⟩)
    ∧ (isIgnored regions (p % img1.width) (p / img1.width) = false →
       isDifferent m
          (img1.data (4 * p)) (img1.data (4 * p + 1)) (img1.data (4 * p + 2)) (img1.data (4 * p + 3))
          (img2.data (4 * p)) (img2.data (4 * p + 1)) (img2.data (4 * p + 2)) (img2.data (4 * p + 3))
          = false →
      (compareImages img1 img2 regions m).diffImage p =
        ⟨(img1.data (4 * p) : ℚ) * 0.1 + 255 * 0.9,
         (img1.data (4 * p + 1) : ℚ) * 0.1 + 255 * 0.9,
         (img1.data (4 * p + 2) : ℚ) * 0.1 + 255 * 0.9, 255⟩) := by
  refine ⟨?_, ?_, ?_⟩
  · intro hig
    show diffPixelColor img1 img2 regions m p = _
    simp [diffPixelColor, classifyPixel, hig]
  · intro hig hdiff
    show diffPixelColor img1 img2 regions m p = _
    simp [diffPixelColor, classifyPixel, hig, hdiff]
  · intro hig hdiff
    show diffPixelColor img1 img2 regions m p = _
    norm_num [diffPixelColor, classifyPixel, hig, hdiff]

/-- Witness for C9: the ignored left pixel of the 2 by 1 example renders
as the baseline's grayscale luma, with both hypotheses discharged. -/
theorem diffImage_rendering_witness :
    0 < blackImage2x1.width * blackImage2x1.height
    ∧ isIgnored [⟨0, 0, 1, 1⟩] (0 % blackImage2x1.width) (0 / blackImage2x1.width) = true
    ∧ (compareImages blackImage2x1 candWhiteSecond [⟨0, 0, 1, 1⟩]
        ComparisonMethod.PIXEL).diffImage 0 =
      ⟨luma (blackImage2x1.data 0 : ℚ) (blackImage2x1.data 1 : ℚ) (blackImage2x1.data 2 : ℚ),
       luma (blackImage2x1.data 0 : ℚ) (blackImage2x1.data 1 : ℚ) (blackImage2x1.data 2 : ℚ),
       luma (blackImage2x1.data 0 : ℚ) (blackImage2x1.data 1 : ℚ) (blackImage2x1.data 2 : ℚ),
       255⟩ :=
  ⟨by norm_num [blackImage2x1],
   by norm_num [isIgnored, inRegion, blackImage2x1],
   by
    have h := (diffImage_rendering blackImage2x1 candWhiteSecond [⟨0, 0, 1, 1⟩]
      ComparisonMethod.PIXEL 0 (by norm_num [blackImage2x1])).1
      (by norm_num [isIgnored, inRegion, blackImage2x1])
    simpa using h⟩

/-- Claim C10: candidate pixel values inside ignored regions never
influence any output: two candidates that agree on every byte of every
non-ignored pixel give the same diffPercentage and the same diff image at
every pixel of the baseline grid. -/
theorem ignored_region_noninterference (img1 img2 img2a : ImageData)
    (regions : List IgnoreRegion) (m : ComparisonMethod)
    (_hw : img2.width = img2a.width) (_hh : img2.height = img2a.height)
    (hagree : ∀ p, p < img1.width * img1.height →
      isIgnored regions (p % img1.width) (p / img1.width) = false →
      ∀ c, c < 4 → img2.data (4 * p + c) = img2a.data (4 * p + c)) :
    (compareImages img1 img2 regions m).diffPercentage
      = (compareImages img1 img2a regions m).diffPercentage
    ∧ ∀ p, p < img1.width * img1.height →
      (compareImages img1 img2 regions m).diffImage p
        = (compareImages img1 img2a regions m).diffImage p := by
  have hcl : ∀ p, p < img1.width * img1.height →
      classifyPixel img1 img2 regions m p = classifyPixel img1 img2a regions m p := by
    intro p hp
    cases hig : isIgnored regions (p % img1.width) (p / img1.width)
    · have e0 : img2.data (4 * p) = img2a.data (4 * p) := by
        simpa using hagree p hp hig 0 (by norm_num)
      have e1 : img2.data (4 * p + 1) = img2a.data (4 * p + 1) :=
        hagree p hp hig 1 (by norm_num)
      have e2 : img2.data (4 * p + 2) = img2a.data (4 * p + 2) :=
        hagree p hp hig 2 (by norm_num)
      have e3 : img2.data (4 * p + 3) = img2a.data (4 * p + 3) :=
        hagree p hp hig 3 (by norm_num)
      unfold classifyPixel
      rw [e0, e1, e2, e3]
    · simp [classifyPixel, hig]
  constructor
  · show (diffPixels img1 img2 regions m : ℚ) / _ * 100
      = (diffPixels img1 img2a regions m : ℚ) / _ * 100
    have hcount : diffPixels img1 img2 regions m = diffPixels img1 img2a regions m := by
      unfold diffPixels
      congr 1
      apply Finset.filter_congr
      intro x hx
      rw [hcl x (Finset.mem_range.mp hx)]
    rw [hcount]
  · intro p hp
    show diffPixelColor img1 img2 regions m p = diffPixelColor img1 img2a regions m p
    unfold diffPixelColor
    rw [hcl p hp]

/-- Witness for C10: with the whole 2 by 1 grid ignored, an all-black and
a half-white candidate give identical outputs; all hypotheses are
discharged concretely. -/
theorem ignored_region_noninterference_witness :
    (compareImages blackImage2x1 blackImage2x1 [⟨0, 0, 2, 1⟩]
        ComparisonMethod.PIXEL).diffPercentage
      = (compareImages blackImage2x1 candWhiteSecond [⟨0, 0, 2, 1⟩]
        ComparisonMethod.PIXEL).diffPercentage
    ∧ ∀ p, p < blackImage2x1.width * blackImage2x1.height →
      (compareImages blackImage2x1 blackImage2x1 [⟨0, 0, 2, 1⟩]
          ComparisonMethod.PIXEL).diffImage p
        = (compareImages blackImage2x1 candWhiteSecond [⟨0, 0, 2, 1⟩]
          ComparisonMethod.PIXEL).diffImage p :=
  ignored_region_noninterference blackImage2x1 blackImage2x1 candWhiteSecond
    [⟨0, 0, 2, 1⟩] ComparisonMethod.PIXEL rfl rfl
    (by
      intro p hp hig
      exfalso
      have hp2 : p < 2 := by simpa [blackImage2x1] using hp
      interval_cases p <;> simp [isIgnored, inRegion, blackImage2x1] at hig)
